import Mathlib

/-
Shallow embedding of the concurrent frame-benchmark harness of this
repository (src/findcontour_time_10000.cpp, src/max_time.cpp,
src/time_skip.cpp, src/pixel.cpp).

Modelling conventions:
* Wall-clock durations (microseconds, `double` in the C++) are rationals.
  The clock readings the environment supplies are data of a `FrameEnv`;
  claims about completed runs take the run outcome as a hypothesis.
* The OpenCV geometry oracles (contourArea, arcLength, convexHull) are
  modelled by giving each contour its area, perimeter, hull area and hull
  perimeter as environment data; M_PI is an abstract parameter `pi`.
* `imread` failure yields an empty matrix in OpenCV; feeding an empty
  matrix to GaussianBlur raises an uncaught cv::Exception, which aborts
  the run.  This is modelled by `ProcOutcome.crash` and by the item runner
  returning `Except.error ()`.
* Because every compound statistics update in run_experiment is performed
  under one `lock_guard` (one mutual-exclusion scope per item), the
  aggregation of a run is a sequence of atomic per-item steps; a worker
  interleaving is therefore an ordering of the enumerated items, and the
  theorems below quantify over all such orderings.
-/

namespace VisionBench

/-- One extracted contour, described by the values the OpenCV geometry
oracles return for it and for its convex hull. -/
structure Contour where
  area : ℚ
  perimeter : ℚ
  hullArea : ℚ
  hullPerimeter : ℚ
deriving DecidableEq

/-- The degeneracy threshold 1e-6 used by calculate_contour_metrics. -/
def eps : ℚ := 1 / 1000000

/-- The ContourMetrics struct; all fields default to 0. -/
structure ContourMetrics where
  area_original : ℚ := 0
  area_hull : ℚ := 0
  area_ratio : ℚ := 0
  circularity_original : ℚ := 0
  circularity_hull : ℚ := 0
  circularity_ratio : ℚ := 0
deriving DecidableEq

/-- std::max_element over contourArea with the comparator
`contourArea(c1) < contourArea(c2)`: the current element is replaced only
when the candidate has strictly greater area, so the first maximal element
is kept. -/
def maxElement : List Contour → Option Contour
  | [] => none
  | c :: rest => some (rest.foldl (fun b x => if b.area < x.area then x else b) c)

/-- The body of calculate_contour_metrics applied to the selected contour
`cnt` (the part of the C++ after max_element): degeneracy checks against
1e-6 on the contour and on its hull, then the ratio computations. -/
def contourBodyMetrics (pi : ℚ) (cnt : Contour) : ContourMetrics :=
  if cnt.area ≤ eps ∨ cnt.perimeter ≤ eps then {}
  else if cnt.hullArea ≤ eps ∨ cnt.hullPerimeter ≤ eps then {}
  else
    { area_original := cnt.area,
      area_hull := cnt.hullArea,
      area_ratio := cnt.hullArea / cnt.area,
      circularity_original := 4 * pi * cnt.area / (cnt.perimeter * cnt.perimeter),
      circularity_hull := 4 * pi * cnt.hullArea / (cnt.hullPerimeter * cnt.hullPerimeter),
      circularity_ratio :=
        (4 * pi * cnt.hullArea / (cnt.hullPerimeter * cnt.hullPerimeter)) /
          (4 * pi * cnt.area / (cnt.perimeter * cnt.perimeter)) }

/-- calculate_contour_metrics: empty contour list yields the default
struct, otherwise the metrics of the max-area contour. -/
def calculate_contour_metrics (pi : ℚ) (contours : List Contour) : ContourMetrics :=
  match maxElement contours with
  | none => {}
  | some cnt => contourBodyMetrics pi cnt

/-- Per-frame environment data: whether imread succeeds, the
post-threshold white pixel count, the contours findContours would return,
and the two clock-derived durations process_single_image would measure
(findcontour_duration and the full duration). -/
structure FrameEnv where
  readable : Bool
  whitePixelCount : ℕ
  contours : List Contour
  findContourTime : ℚ
  measuredTime : ℚ
deriving DecidableEq

/-- Outcome of process_single_image in findcontour_time_10000.cpp:
either an uncaught cv::Exception (unreadable input) or normal return.
The Bool records whether findContours was reached (false on the
out-of-range early return); then come the contours out-parameter, the
metrics out-parameter, duration, and findcontour_duration. -/
inductive ProcOutcome where
  | crash : ProcOutcome
  | done : Bool → List Contour → ContourMetrics → ℚ → ℚ → ProcOutcome
deriving DecidableEq

/-- process_single_image of findcontour_time_10000.cpp. An unreadable
image crashes in GaussianBlur. A white-pixel count outside [250, 650]
sets duration to 0 and returns before any morphology or contour search
(the findcontour_duration out-parameter is left unset in the C++ and never
read on that path; it is modelled as 0). Otherwise findContours runs and
metrics are computed only when contours are non-empty. -/
def process_single_image (pi : ℚ) (env : FrameEnv) : ProcOutcome :=
  if env.readable = false then ProcOutcome.crash
  else if env.whitePixelCount < 250 ∨ 650 < env.whitePixelCount then
    ProcOutcome.done false [] {} 0 0
  else
    ProcOutcome.done true env.contours
      (if env.contours.isEmpty then {} else calculate_contour_metrics pi env.contours)
      env.measuredTime env.findContourTime

/-- One entry of the per-run results vector:
(path, circularity_ratio, area_ratio, process_time, findcontour_time). -/
abbrev ResultTuple := String × ℚ × ℚ × ℚ × ℚ

/-- The shared per-run statistics of run_experiment in
findcontour_time_10000.cpp. -/
structure RunState where
  totalTime : ℚ := 0
  totalFindcontourTime : ℚ := 0
  number : ℕ := 0
  maxProcessTime : ℚ := 0
  maxTimeImage : String × ℚ := ("", 0)
  results : List ResultTuple := []
  skipped : List String := []
deriving DecidableEq

/-- The freshly reset run statistics. -/
def initRunState : RunState := {}

/-- The per-item classification step of run_experiment
(findcontour_time_10000.cpp lines 142-155), the whole of which executes
under one lock_guard: a positive process_time is a success (sums, the
compound (max_elapsed, max_item) update, counter, results row), otherwise
the path is appended to skipped_images. -/
def classify (st : RunState) (path : String) (metrics : ContourMetrics) (t fct : ℚ) :
    RunState :=
  if 0 < t then
    { st with
      totalTime := st.totalTime + t,
      totalFindcontourTime := st.totalFindcontourTime + fct,
      maxProcessTime := if st.maxProcessTime < t then t else st.maxProcessTime,
      maxTimeImage := if st.maxProcessTime < t then (path, t) else st.maxTimeImage,
      number := st.number + 1,
      results := st.results ++ [(path, metrics.circularity_ratio, metrics.area_ratio, t, fct)] }
  else
    { st with skipped := st.skipped ++ [path] }

/-- A work item: the enumerated path together with its frame environment. -/
abbrev WItem := String × FrameEnv

/-- Processing of a list of work items in their interleaving order.  An
unreadable frame raises an uncaught exception, aborting the run
(`Except.error`); otherwise each item is classified atomically. -/
def runItems (pi : ℚ) : List WItem → RunState → Except Unit RunState
  | [], st => Except.ok st
  | it :: rest, st =>
    match process_single_image pi it.2 with
    | ProcOutcome.crash => Except.error ()
    | ProcOutcome.done _ _ m t fct => runItems pi rest (classify st it.1 m t fct)

/-- The success record run_experiment would produce for one item: its
path and elapsed time when the item is classified as a success
(process_time > 0), and nothing otherwise. -/
def successPair (pi : ℚ) (it : WItem) : Option (String × ℚ) :=
  match process_single_image pi it.2 with
  | ProcOutcome.crash => none
  | ProcOutcome.done _ _ _ t _ => if 0 < t then some (it.1, t) else none

/-- The (path, elapsed) pairs of the successes of a run, in processing
order. -/
def runSuccessPairs (pi : ℚ) (items : List WItem) : List (String × ℚ) :=
  items.filterMap (successPair pi)

/-- Whether run_experiment classifies an outcome as a success
(the `process_time > 0` test). -/
def classifiedSuccess : ProcOutcome → Bool
  | ProcOutcome.crash => false
  | ProcOutcome.done _ _ _ t _ => decide (0 < t)

/-- Per-run shared statistics of run_experiment in max_time.cpp: only
the total time, the success counter, and the (max time, max image name)
record; that variant keeps no results vector and no skip list. -/
structure MTState where
  totalTime : ℚ := 0
  number : ℕ := 0
  maxProcessTime : ℚ := 0
  maxImage : String := ""
deriving DecidableEq

/-- process_single_image of max_time.cpp: no pixel-count window and no
time budget; an unreadable frame crashes in GaussianBlur, otherwise
findContours always runs and the duration is the measured elapsed time. -/
def mt_process_single_image (pi : ℚ) (env : FrameEnv) : ProcOutcome :=
  if env.readable = false then ProcOutcome.crash
  else
    ProcOutcome.done true env.contours
      (if env.contours.isEmpty then {} else calculate_contour_metrics pi env.contours)
      env.measuredTime 0

/-- The per-item step of run_experiment in max_time.cpp (lines 122-130):
a positive process_time updates the totals and the joint
(max time, max image) record under the lock; a non-positive time leaves
the state untouched (that variant records no skip). -/
def mtClassify (st : MTState) (path : String) (t : ℚ) : MTState :=
  if 0 < t then
    { totalTime := st.totalTime + t,
      number := st.number + 1,
      maxProcessTime := if st.maxProcessTime < t then t else st.maxProcessTime,
      maxImage := if st.maxProcessTime < t then path else st.maxImage }
  else st

/-- Item processing loop of max_time.cpp. -/
def mtRunItems (pi : ℚ) : List WItem → MTState → Except Unit MTState
  | [], st => Except.ok st
  | it :: rest, st =>
    match mt_process_single_image pi it.2 with
    | ProcOutcome.crash => Except.error ()
    | ProcOutcome.done _ _ _ t _ => mtRunItems pi rest (mtClassify st it.1 t)

/-- Per-frame environment of time_skip.cpp's process_single_image: d1 is
the elapsed time measured at the check point after morphology and before
findContours, d2 the elapsed time measured after findContours. -/
structure TSEnv where
  readable : Bool
  d1 : ℚ
  d2 : ℚ
  contours : List Contour
deriving DecidableEq

/-- Outcome of time_skip.cpp's process_single_image: crash (unreadable
input), `rejected t` when it returns false with duration t, or
`accepted m t` when it returns true with metrics m and duration t. -/
inductive TSOutcome where
  | crash : TSOutcome
  | rejected : ℚ → TSOutcome
  | accepted : ContourMetrics → ℚ → TSOutcome
deriving DecidableEq

/-- The metrics time_skip.cpp computes after the second check point:
default when no contour was found. -/
def tsMetricsOf (pi : ℚ) (e : TSEnv) : ContourMetrics :=
  if e.contours.isEmpty then {} else calculate_contour_metrics pi e.contours

/-- process_single_image of time_skip.cpp: 200 microsecond budget checks
before and after findContours; exceeding the budget returns false with
the partial duration measured at the failing check point. -/
def ts_process_single_image (pi : ℚ) (e : TSEnv) : TSOutcome :=
  if e.readable = false then TSOutcome.crash
  else if 200 < e.d1 then TSOutcome.rejected e.d1
  else if 200 < e.d2 then TSOutcome.rejected e.d2
  else TSOutcome.accepted (tsMetricsOf pi e) e.d2

/-- Per-run shared statistics of run_experiment in time_skip.cpp; its
skip list records (path, partial elapsed time) pairs. -/
structure TSState where
  totalTime : ℚ := 0
  number : ℕ := 0
  maxProcessTime : ℚ := 0
  maxTimeImage : String × ℚ := ("", 0)
  results : List (String × ℚ × ℚ × ℚ) := []
  skipped : List (String × ℚ) := []
deriving DecidableEq

/-- The per-item step of run_experiment in time_skip.cpp (lines 141-153),
executed under one lock: a processed item becomes a success row, a
rejected one is appended to skipped_images with its partial time. -/
def tsClassify (st : TSState) (path : String) (processed : Bool) (m : ContourMetrics)
    (t : ℚ) : TSState :=
  if processed then
    { st with
      totalTime := st.totalTime + t,
      maxProcessTime := if st.maxProcessTime < t then t else st.maxProcessTime,
      maxTimeImage := if st.maxProcessTime < t then (path, t) else st.maxTimeImage,
      number := st.number + 1,
      results := st.results ++ [(path, m.circularity_ratio, m.area_ratio, t)] }
  else
    { st with skipped := st.skipped ++ [(path, t)] }

/-- Item processing loop of time_skip.cpp. -/
def tsRunItems (pi : ℚ) : List (String × TSEnv) → TSState → Except Unit TSState
  | [], st => Except.ok st
  | it :: rest, st =>
    match ts_process_single_image pi it.2 with
    | TSOutcome.crash => Except.error ()
    | TSOutcome.rejected t => tsRunItems pi rest (tsClassify st it.1 false {} t)
    | TSOutcome.accepted m t => tsRunItems pi rest (tsClassify st it.1 true m t)

/-- Environment of one repetition of main in findcontour_time_10000.cpp:
whether the background image reads successfully this repetition, and the
enumerated items with their frame environments. -/
structure RepEnv where
  bgReadable : Bool
  items : List WItem

/-- The diagnostic line run_experiment writes to cerr when the background
image cannot be read. -/
def bgErrLine (dir : String) : String :=
  "Error: Could not read background image: " ++ dir ++ "/background.tiff"

/-- Accumulator of the repetition loop of main in
findcontour_time_10000.cpp: the four cross-run sums, the results vector
as left by the most recent repetition, and the cerr lines. -/
structure MainAcc where
  totCirc : ℚ := 0
  totArea : ℚ := 0
  totProc : ℚ := 0
  totFc : ℚ := 0
  lastResults : List ResultTuple := []
  errLines : List String := []

/-- circularity_ratio component of a results row. -/
def resCirc (r : ResultTuple) : ℚ := r.2.1

/-- area_ratio component of a results row. -/
def resArea (r : ResultTuple) : ℚ := r.2.2.1

/-- process_time component of a results row. -/
def resProc (r : ResultTuple) : ℚ := r.2.2.2.1

/-- findcontour_time component of a results row. -/
def resFc (r : ResultTuple) : ℚ := r.2.2.2.2

/-- One iteration of the repetition loop (findcontour_time_10000.cpp
lines 199-214): results/skipped are cleared, run_experiment runs; when the
background is unreadable it writes the diagnostic and returns early, so
the totals gain nothing; otherwise the four sums accumulate over this
repetition's results. -/
def mainStep (pi : ℚ) (dir : String) (acc : MainAcc) (re : RepEnv) :
    Except Unit MainAcc :=
  if re.bgReadable = false then
    Except.ok { acc with lastResults := [], errLines := acc.errLines ++ [bgErrLine dir] }
  else
    match runItems pi re.items initRunState with
    | Except.error e => Except.error e
    | Except.ok st =>
      Except.ok { acc with
        totCirc := acc.totCirc + (st.results.map resCirc).sum,
        totArea := acc.totArea + (st.results.map resArea).sum,
        totProc := acc.totProc + (st.results.map resProc).sum,
        totFc := acc.totFc + (st.results.map resFc).sum,
        lastResults := st.results }

/-- The repetition loop folded over the configured repetitions. -/
def mainLoop (pi : ℚ) (dir : String) : List RepEnv → MainAcc → Except Unit MainAcc
  | [], acc => Except.ok acc
  | re :: rest, acc =>
    match mainStep pi dir acc re with
    | Except.error e => Except.error e
    | Except.ok acc2 => mainLoop pi dir rest acc2

/-- What main reports: the process exit code, the cerr diagnostics, and
the four printed averages. -/
structure MainOut where
  exitCode : ℤ
  errLines : List String
  avgCirc : ℚ
  avgArea : ℚ
  avgProc : ℚ
  avgFc : ℚ
deriving DecidableEq

/-- main of findcontour_time_10000.cpp (R and the directory generalized
from compiled-in constants to parameters, as the spec's interface section
does): after the repetition loop, total_processed_images is the LAST
repetition's results count times the repetition count, each average is
the corresponding cross-run sum divided by that quantity (0 when it is 0),
and the process always exits 0. -/
def mainModel (pi : ℚ) (dir : String) (reps : List RepEnv) : Except Unit MainOut :=
  match mainLoop pi dir reps {} with
  | Except.error e => Except.error e
  | Except.ok acc =>
    Except.ok
      { exitCode := 0,
        errLines := acc.errLines,
        avgCirc := if 0 < acc.lastResults.length * reps.length then
            acc.totCirc / ((acc.lastResults.length * reps.length : ℕ) : ℚ) else 0,
        avgArea := if 0 < acc.lastResults.length * reps.length then
            acc.totArea / ((acc.lastResults.length * reps.length : ℕ) : ℚ) else 0,
        avgProc := if 0 < acc.lastResults.length * reps.length then
            acc.totProc / ((acc.lastResults.length * reps.length : ℕ) : ℚ) else 0,
        avgFc := if 0 < acc.lastResults.length * reps.length then
            acc.totFc / ((acc.lastResults.length * reps.length : ℕ) : ℚ) else 0 }

/-- An in-range frame (pixel count 300) with no contour, elapsed 5. -/
def wEnvA : FrameEnv := ⟨true, 300, [], 1, 5⟩

/-- An out-of-range frame (pixel count 100). -/
def wEnvB : FrameEnv := ⟨true, 100, [], 1, 2⟩

/-- An in-range frame with no contour, elapsed 7. -/
def wEnvC : FrameEnv := ⟨true, 300, [], 1, 7⟩

/-- An unreadable frame. -/
def badFrame : FrameEnv := ⟨false, 0, [], 0, 0⟩

/-- An in-range frame with no contour, findContours time 2, elapsed 5. -/
def w9Env : FrameEnv := ⟨true, 300, [], 2, 5⟩

/-- A time_skip frame exceeding the budget at the first check point. -/
def w7Env : TSEnv := ⟨true, 300, 350, []⟩

/-- A small contour. -/
def w10cA : Contour := ⟨1, 1, 1, 1⟩

/-- A larger, non-degenerate contour. -/
def w10cB : Contour := ⟨2, 3, 4, 5⟩

/-- A run over one in-range and one out-of-range item. -/
def c4Items : List WItem := [("a", wEnvA), ("b", wEnvB)]

/-- The run state findcontour_time_10000's run_experiment reaches on
c4Items. -/
def c4StF : RunState := ⟨5, 1, 1, 5, ("a", 5), [("a", 0, 0, 5, 1)], ["b"]⟩

/-- The run state max_time's run_experiment reaches on c4Items. -/
def c4StM : MTState := ⟨7, 2, 5, "a"⟩

/-- A run over a single successful item. -/
def w2Items : List WItem := [("a", wEnvA)]

/-- The run state reached on w2Items. -/
def w2St : RunState := ⟨5, 1, 1, 5, ("a", 5), [("a", 0, 0, 5, 1)], []⟩

/-- A run over two successful items with distinct elapsed times. -/
def w5Items : List WItem := [("a", wEnvA), ("c", wEnvC)]

/-- The run state reached on w5Items. -/
def w5St : RunState := ⟨12, 2, 2, 7, ("c", 7), [("a", 0, 0, 5, 1), ("c", 0, 0, 7, 1)], []⟩

/-- Two repetitions whose success counts differ: one success of elapsed 4,
then two successes of elapsed 1 each. -/
def c1Reps : List RepEnv := [⟨true, [("a", ⟨true, 300, [], 1, 4⟩)]⟩,
  ⟨true, [("a", ⟨true, 300, [], 1, 1⟩), ("b", ⟨true, 300, [], 1, 1⟩)]⟩]

/-- Three repetitions with the background image unreadable every time. -/
def c3Reps : List RepEnv := [⟨false, []⟩, ⟨false, []⟩, ⟨false, []⟩]

/-- What main reports on c1Reps: sums divided by (last run count) × R =
2 × 2, giving average processing time 6/4 = 3/2 and average findContours
time 3/4, with exit code 0. -/
def c1Out : MainOut :=
  { exitCode := 0, errLines := [], avgCirc := 0, avgArea := 0,
    avgProc := 3 / 2, avgFc := 3 / 4 }

/-- What main reports on c3Reps: one diagnostic per repetition, all-zero
averages, exit code 0. -/
def c3Out : MainOut :=
  { exitCode := 0,
    errLines := [bgErrLine "Test_images/512x96crop",
      bgErrLine "Test_images/512x96crop", bgErrLine "Test_images/512x96crop"],
    avgCirc := 0, avgArea := 0, avgProc := 0, avgFc := 0 }

/-- find? over an append when the left part already finds a witness. -/
lemma find?_append_some {α : Type} (f : α → Bool) (l1 l2 : List α) (a : α)
    (h : l1.find? f = some a) : (l1 ++ l2).find? f = some a := by
  induction l1 with
  | nil => simp at h
  | cons x xs ih =>
    rw [List.cons_append]
    by_cases hx : f x = true
    · rw [List.find?_cons_of_pos _ hx] at h
      rw [List.find?_cons_of_pos _ hx]
      exact h
    · rw [List.find?_cons_of_neg _ hx] at h
      rw [List.find?_cons_of_neg _ hx]
      exact ih h

/-- find? over an append when the left part finds nothing. -/
lemma find?_append_none {α : Type} (f : α → Bool) (l1 l2 : List α)
    (h : l1.find? f = none) : (l1 ++ l2).find? f = l2.find? f := by
  induction l1 with
  | nil => simp
  | cons x xs ih =>
    rw [List.cons_append]
    by_cases hx : f x = true
    · rw [List.find?_cons_of_pos _ hx] at h
      cases h
    · rw [List.find?_cons_of_neg _ hx] at h
      rw [List.find?_cons_of_neg _ hx]
      exact ih h

/-- The starting value is below a foldl of max. -/
lemma le_foldl_max (l : List ℚ) (b : ℚ) : b ≤ l.foldl max b := by
  induction l generalizing b with
  | nil => simp
  | cons x xs ih =>
    simp only [List.foldl_cons]
    exact le_trans (le_max_left b x) (ih (max b x))

/-- Every member is below a foldl of max. -/
lemma mem_le_foldl_max (l : List ℚ) (a : ℚ) : ∀ b, a ∈ l → a ≤ l.foldl max b := by
  induction l with
  | nil =>
    intro b ha
    simp at ha
  | cons x xs ih =>
    intro b ha
    simp only [List.foldl_cons]
    rcases List.mem_cons.mp ha with h | h
    · subst h
      exact le_trans (le_max_right b a) (le_foldl_max xs (max b a))
    · exact ih (max b x) h

/-- A foldl of max stays below any common upper bound. -/
lemma foldl_max_le (l : List ℚ) (b c : ℚ) (hb : b ≤ c) (h : ∀ a ∈ l, a ≤ c) :
    l.foldl max b ≤ c := by
  induction l generalizing b with
  | nil => simpa
  | cons x xs ih =>
    simp only [List.foldl_cons]
    exact ih (max b x) (max_le hb (h x (List.mem_cons_self x xs)))
      (fun a ha => h a (List.mem_cons_of_mem x ha))

/-- The fold inside maxElement returns the start or a member, and its
area dominates the start and every member. -/
lemma foldl_maxArea_spec (rest : List Contour) (b : Contour) :
    (rest.foldl (fun b x => if b.area < x.area then x else b) b = b ∨
      rest.foldl (fun b x => if b.area < x.area then x else b) b ∈ rest) ∧
    b.area ≤ (rest.foldl (fun b x => if b.area < x.area then x else b) b).area ∧
    ∀ x ∈ rest, x.area ≤ (rest.foldl (fun b x => if b.area < x.area then x else b) b).area := by
  induction rest generalizing b with
  | nil => simp
  | cons y ys ih =>
    simp only [List.foldl_cons]
    obtain ⟨hmem, hle, hall⟩ := ih (if b.area < y.area then y else b)
    refine ⟨?_, ?_, ?_⟩
    · rcases hmem with h | h
      · by_cases hb : b.area < y.area
        · right
          rw [if_pos hb] at h ⊢
          rw [h]
          exact List.mem_cons_self y ys
        · left
          rw [if_neg hb] at h ⊢
          exact h
      · right
        exact List.mem_cons_of_mem y h
    · refine le_trans ?_ hle
      by_cases hb : b.area < y.area
      · rw [if_pos hb]
        exact le_of_lt hb
      · rw [if_neg hb]
    · intro x hx
      rcases List.mem_cons.mp hx with h | h
      · subst h
        refine le_trans ?_ hle
        by_cases hb : b.area < x.area
        · rw [if_pos hb]
        · rw [if_neg hb]
          exact le_of_not_lt hb
      · exact hall x h

/-- maxElement returns a member whose area dominates the whole list. -/
lemma maxElement_spec (l : List Contour) (cnt : Contour) (h : maxElement l = some cnt) :
    cnt ∈ l ∧ ∀ x ∈ l, x.area ≤ cnt.area := by
  cases l with
  | nil => simp [maxElement] at h
  | cons c rest =>
    simp only [maxElement, Option.some.injEq] at h
    obtain ⟨hmem, hle, hall⟩ := foldl_maxArea_spec rest c
    subst h
    refine ⟨?_, ?_⟩
    · rcases hmem with h1 | h1
      · rw [h1]
        exact List.mem_cons_self c rest
      · exact List.mem_cons_of_mem c h1
    · intro x hx
      rcases List.mem_cons.mp hx with h1 | h1
      · subst h1
        exact hle
      · exact hall x h1

/-- classify adds exactly one entry, to the results or to the skip list. -/
lemma classify_counts (st : RunState) (path : String) (m : ContourMetrics) (t fct : ℚ) :
    (classify st path m t fct).results.length + (classify st path m t fct).skipped.length =
      st.results.length + st.skipped.length + 1 := by
  unfold classify
  split <;> simp [List.length_append] <;> omega

/-- A completed run classified exactly the enumerated items. -/
lemma runItems_counts (pi : ℚ) (items : List WItem) :
    ∀ st0 st, runItems pi items st0 = Except.ok st →
      st.results.length + st.skipped.length =
        st0.results.length + st0.skipped.length + items.length := by
  induction items with
  | nil =>
    intro st0 st h
    simp only [runItems, Except.ok.injEq] at h
    subst h
    simp
  | cons it rest ih =>
    intro st0 st h
    simp only [runItems] at h
    cases hpo : process_single_image pi it.2 with
    | crash =>
      rw [hpo] at h
      cases h
    | done s cs m t fct =>
      rw [hpo] at h
      have hrec := ih (classify st0 it.1 m t fct) st h
      rw [hrec, classify_counts]
      simp only [List.length_cons]
      omega

/-- In max_time.cpp, a completed run over items whose measured times are
positive counts every enumerated item. -/
lemma mtRunItems_number (pi : ℚ) (items : List WItem) :
    ∀ st0 st, (∀ it ∈ items, 0 < it.2.measuredTime) →
      mtRunItems pi items st0 = Except.ok st →
      st.number = st0.number + items.length := by
  induction items with
  | nil =>
    intro st0 st _ h
    simp only [mtRunItems, Except.ok.injEq] at h
    subst h
    simp
  | cons it rest ih =>
    intro st0 st hpos h
    simp only [mtRunItems] at h
    cases hr : it.2.readable with
    | false =>
      rw [mt_process_single_image, hr] at h
      simp at h
    | true =>
      rw [mt_process_single_image, hr] at h
      simp only [Bool.true_eq_false, if_false] at h
      have ht : 0 < it.2.measuredTime := hpos it (List.mem_cons_self it rest)
      have hrec := ih (mtClassify st0 it.1 it.2.measuredTime) st
        (fun x hx => hpos x (List.mem_cons_of_mem it hx)) h
      rw [hrec]
      simp only [mtClassify, if_pos ht, List.length_cons]
      omega

/-- Invariant of the (max_elapsed, max_item) pair after processing a
sequence of successes with the given (path, elapsed) records: the stored
pair is coherent, every recorded elapsed time is positive and bounded by
max_elapsed, the empty prefix leaves the reset values, and otherwise the
stored pair is the first record attaining max_elapsed. -/
def MaxInv (pairs : List (String × ℚ)) (mp : ℚ) (mi : String × ℚ) : Prop :=
  mi.2 = mp ∧ (∀ p ∈ pairs, 0 < p.2 ∧ p.2 ≤ mp) ∧
  (pairs = [] → mp = 0 ∧ mi = ("", 0)) ∧
  (pairs ≠ [] → pairs.find? (fun p => decide (p.2 = mp)) = some mi)

/-- The reset state satisfies the max invariant. -/
lemma maxInv_init : MaxInv [] 0 ("", 0) := by
  refine ⟨rfl, ?_, ?_, ?_⟩ <;> simp

/-- One atomic compare-and-conditionally-replace step (the body of the
critical section) preserves the max invariant. -/
lemma maxInv_step (pairs : List (String × ℚ)) (mp : ℚ) (mi : String × ℚ)
    (path : String) (t : ℚ) (hInv : MaxInv pairs mp mi) (ht : 0 < t) :
    MaxInv (pairs ++ [(path, t)]) (if mp < t then t else mp)
      (if mp < t then (path, t) else mi) := by
  obtain ⟨h1, h2, h3, h4⟩ := hInv
  by_cases hlt : mp < t
  · rw [if_pos hlt, if_pos hlt]
    refine ⟨rfl, ?_, ?_, ?_⟩
    · intro p hp
      rcases List.mem_append.mp hp with hp | hp
      · exact ⟨(h2 p hp).1, le_of_lt (lt_of_le_of_lt (h2 p hp).2 hlt)⟩
      · simp only [List.mem_singleton] at hp
        subst hp
        exact ⟨ht, le_refl t⟩
    · intro hcon
      simp at hcon
    · intro _
      have hnone : pairs.find? (fun p => decide (p.2 = t)) = none := by
        rw [List.find?_eq_none]
        intro x hx
        simp only [decide_eq_true_eq]
        exact ne_of_lt (lt_of_le_of_lt (h2 x hx).2 hlt)
      rw [find?_append_none _ _ _ hnone]
      simp
  · rw [if_neg hlt, if_neg hlt]
    have htle : t ≤ mp := le_of_not_lt hlt
    have hne : pairs ≠ [] := by
      intro hnil
      have hmp0 := (h3 hnil).1
      rw [hmp0] at htle
      linarith
    refine ⟨h1, ?_, ?_, ?_⟩
    · intro p hp
      rcases List.mem_append.mp hp with hp | hp
      · exact h2 p hp
      · simp only [List.mem_singleton] at hp
        subst hp
        exact ⟨ht, htle⟩
    · intro hcon
      simp at hcon
    · intro _
      exact find?_append_some _ _ _ _ (h4 hne)

/-- Processing any list of items (any worker interleaving) maintains the
max invariant over the successes recorded so far. -/
lemma runItems_maxInv (pi : ℚ) (items : List WItem) :
    ∀ st0 st pairs0, MaxInv pairs0 st0.maxProcessTime st0.maxTimeImage →
      runItems pi items st0 = Except.ok st →
      MaxInv (pairs0 ++ runSuccessPairs pi items) st.maxProcessTime st.maxTimeImage := by
  induction items with
  | nil =>
    intro st0 st pairs0 hInv h
    simp only [runItems, Except.ok.injEq] at h
    subst h
    simpa [runSuccessPairs] using hInv
  | cons it rest ih =>
    intro st0 st pairs0 hInv h
    simp only [runItems] at h
    cases hpo : process_single_image pi it.2 with
    | crash =>
      rw [hpo] at h
      cases h
    | done s cs m t fct =>
      rw [hpo] at h
      by_cases h0 : 0 < t
      · have hrsp : runSuccessPairs pi (it :: rest) = (it.1, t) :: runSuccessPairs pi rest := by
          simp [runSuccessPairs, List.filterMap_cons, successPair, hpo, h0]
        have hcl1 : (classify st0 it.1 m t fct).maxProcessTime =
            (if st0.maxProcessTime < t then t else st0.maxProcessTime) := by
          simp [classify, h0]
        have hcl2 : (classify st0 it.1 m t fct).maxTimeImage =
            (if st0.maxProcessTime < t then (it.1, t) else st0.maxTimeImage) := by
          simp [classify, h0]
        have hstep := maxInv_step pairs0 st0.maxProcessTime st0.maxTimeImage it.1 t hInv h0
        rw [← hcl1, ← hcl2] at hstep
        have hrec := ih (classify st0 it.1 m t fct) st (pairs0 ++ [(it.1, t)]) hstep h
        rw [hrsp]
        rw [List.append_assoc] at hrec
        simpa using hrec
      · have hrsp : runSuccessPairs pi (it :: rest) = runSuccessPairs pi rest := by
          simp [runSuccessPairs, List.filterMap_cons, successPair, hpo, h0]
        have hcl1 : (classify st0 it.1 m t fct).maxProcessTime = st0.maxProcessTime := by
          simp [classify, h0]
        have hcl2 : (classify st0 it.1 m t fct).maxTimeImage = st0.maxTimeImage := by
          simp [classify, h0]
        rw [hrsp]
        refine ih (classify st0 it.1 m t fct) st pairs0 ?_ h
        rw [hcl1, hcl2]
        exact hInv

/-- Claim C4 (confirmed): for every completed run, in
findcontour_time_10000.cpp the number of items classified Success (the
results rows) plus the number of items recorded in the skip list equals
the number of enumerated items — each item lands in exactly one of the
two; and in max_time.cpp, which keeps no skip list, every enumerated item
is counted as a Success whenever the measured elapsed times are positive
(the wall clock strictly advances across the processing of an item). -/
theorem successPlusSkipped_eq_enumerated (pi : ℚ) (items : List WItem)
    (stF : RunState) (stM : MTState)
    (hF : runItems pi items initRunState = Except.ok stF)
    (hM : mtRunItems pi items {} = Except.ok stM)
    (hpos : ∀ it ∈ items, 0 < it.2.measuredTime) :
    stF.results.length + stF.skipped.length = items.length ∧
    stM.number = items.length := by
  constructor
  · have h := runItems_counts pi items initRunState stF hF
    simpa [initRunState] using h
  · have h := mtRunItems_number pi items {} stM hpos hM
    simpa using h

/-- Claim C4 witness: the theorem evaluated on a concrete two-item run
(one in-range success, one out-of-range skip). -/
theorem successPlusSkipped_eq_enumerated_witness :
    runItems 3 c4Items initRunState = Except.ok c4StF ∧
    mtRunItems 3 c4Items {} = Except.ok c4StM ∧
    c4StF.results.length + c4StF.skipped.length = c4Items.length ∧
    c4StM.number = c4Items.length := by
  have h1 : runItems 3 c4Items initRunState = Except.ok c4StF := by
    norm_num [runItems, classify, process_single_image, c4Items, wEnvA, wEnvB,
      initRunState, c4StF]
  have h2 : mtRunItems 3 c4Items {} = Except.ok c4StM := by
    norm_num [mtRunItems, mtClassify, mt_process_single_image, c4Items, wEnvA, wEnvB,
      c4StM]
  have h3 := successPlusSkipped_eq_enumerated 3 c4Items c4StF c4StM h1 h2 (by decide)
  exact ⟨h1, h2, h3.1, h3.2⟩

/-- Claim C2 (confirmed): in the code the comparison and the joint
replacement of (max_elapsed, max_item) execute inside one lock_guard
scope, so each item's aggregation is one atomic step; a worker
interleaving is an ordering of the items. For every such ordering and
every completed sequence of updates (hence, quantifying over all `items`,
at every point after a compound update completes), the stored pair is
coherent: max_item carries elapsed time max_elapsed, and once any success
has been recorded, max_item is the (identifier, elapsed) record of a
success whose elapsed time equals max_elapsed. -/
theorem maxPair_singleCriticalSection (pi : ℚ) (items : List WItem) (st : RunState)
    (h : runItems pi items initRunState = Except.ok st) :
    st.maxTimeImage.2 = st.maxProcessTime ∧
    (runSuccessPairs pi items = [] → st.maxTimeImage = ("", 0)) ∧
    (runSuccessPairs pi items ≠ [] → st.maxTimeImage ∈ runSuccessPairs pi items) := by
  have hInv := runItems_maxInv pi items initRunState st [] maxInv_init h
  rw [List.nil_append] at hInv
  obtain ⟨h1, h2, h3, h4⟩ := hInv
  refine ⟨h1, ?_, ?_⟩
  · intro hnil
    exact (h3 hnil).2
  · intro hne
    exact List.mem_of_find?_eq_some (h4 hne)

/-- Claim C2 witness: the theorem evaluated on a concrete one-item run. -/
theorem maxPair_singleCriticalSection_witness :
    w2St.maxTimeImage.2 = w2St.maxProcessTime ∧
    w2St.maxTimeImage ∈ runSuccessPairs 3 w2Items := by
  have hr : runItems 3 w2Items initRunState = Except.ok w2St := by
    norm_num [runItems, classify, process_single_image, w2Items, wEnvA,
      initRunState, w2St]
  have h := maxPair_singleCriticalSection 3 w2Items w2St hr
  refine ⟨h.1, h.2.2 ?_⟩
  simp [runSuccessPairs, List.filterMap_cons, successPair, process_single_image,
    w2Items, wEnvA]

/-- Claim C5 (confirmed): for a completed run with at least one Success,
max_elapsed equals the maximum elapsed time over the run's successes and
max_item is the FIRST success record attaining it (find? returns the
first match; the code replaces the record only on strictly greater
elapsed time, so exact ties keep the first seen). -/
theorem maxItem_isFirstArgMax (pi : ℚ) (items : List WItem) (st : RunState)
    (h : runItems pi items initRunState = Except.ok st)
    (hne : runSuccessPairs pi items ≠ []) :
    st.maxProcessTime = ((runSuccessPairs pi items).map Prod.snd).foldl max 0 ∧
    (runSuccessPairs pi items).find? (fun p => decide (p.2 = st.maxProcessTime)) =
      some st.maxTimeImage := by
  have hInv := runItems_maxInv pi items initRunState st [] maxInv_init h
  rw [List.nil_append] at hInv
  obtain ⟨h1, h2, h3, h4⟩ := hInv
  have hfind := h4 hne
  have hmem := List.mem_of_find?_eq_some hfind
  constructor
  · apply le_antisymm
    · have hmm : st.maxProcessTime ∈ (runSuccessPairs pi items).map Prod.snd := by
        rw [← h1]
        exact List.mem_map_of_mem Prod.snd hmem
      exact mem_le_foldl_max _ _ 0 hmm
    · apply foldl_max_le
      · have hpos := (h2 _ hmem).1
        rw [h1] at hpos
        exact le_of_lt hpos
      · intro a ha
        obtain ⟨p, hp, hpa⟩ := List.mem_map.mp ha
        rw [← hpa]
        exact (h2 p hp).2
  · exact hfind

/-- Claim C5 witness: the theorem evaluated on a concrete two-success
run. -/
theorem maxItem_isFirstArgMax_witness :
    w5St.maxProcessTime = ((runSuccessPairs 3 w5Items).map Prod.snd).foldl max 0 ∧
    (runSuccessPairs 3 w5Items).find? (fun p => decide (p.2 = w5St.maxProcessTime)) =
      some w5St.maxTimeImage := by
  have hr : runItems 3 w5Items initRunState = Except.ok w5St := by
    norm_num [runItems, classify, process_single_image, w5Items, wEnvA, wEnvC,
      initRunState, w5St]
  have hne : runSuccessPairs 3 w5Items ≠ [] := by
    simp [runSuccessPairs, List.filterMap_cons, successPair, process_single_image,
      w5Items, wEnvA, wEnvC]
  exact maxItem_isFirstArgMax 3 w5Items w5St hr hne

/-- Claim C6 (confirmed): a frame whose post-threshold pixel count lies
outside [250, 650] returns with the searched flag false (no morphology,
no findContours, no metric computation — the early return at the window
check), duration 0 and default metrics, and the run records it in the
skip list (results, counter, sums and max record all untouched). -/
theorem outOfRange_skip_noShapeExtraction (pi : ℚ) (st : RunState) (path : String)
    (env : FrameEnv) (hr : env.readable = true)
    (hw : env.whitePixelCount < 250 ∨ 650 < env.whitePixelCount) :
    process_single_image pi env = ProcOutcome.done false [] {} 0 0 ∧
    runItems pi [(path, env)] st = Except.ok { st with skipped := st.skipped ++ [path] } := by
  have hp : process_single_image pi env = ProcOutcome.done false [] {} 0 0 := by
    unfold process_single_image
    rw [hr]
    rw [if_neg (by simp), if_pos hw]
  refine ⟨hp, ?_⟩
  simp only [runItems, hp]
  simp [classify]

/-- Claim C6 witness: the theorem evaluated on a concrete out-of-range
frame (pixel count 100). -/
theorem outOfRange_skip_noShapeExtraction_witness :
    process_single_image 3 wEnvB = ProcOutcome.done false [] {} 0 0 ∧
    runItems 3 [("b", wEnvB)] initRunState =
      Except.ok { initRunState with skipped := initRunState.skipped ++ ["b"] } :=
  outOfRange_skip_noShapeExtraction 3 initRunState "b" wEnvB rfl (Or.inl (by decide))

/-- Claim C9 (confirmed): an in-range frame whose contour search finds no
contour yields the all-default (all-zero) metrics yet is classified as a
Success (counted in number, recorded among the results with zero ratios,
absent from the skip list), under the clock assumption that the measured
elapsed time of a fully processed frame is positive. -/
theorem noContour_zeroMetrics_success (pi : ℚ) (st : RunState) (path : String)
    (env : FrameEnv) (hr : env.readable = true)
    (hw1 : 250 ≤ env.whitePixelCount) (hw2 : env.whitePixelCount ≤ 650)
    (hc : env.contours = []) (ht : 0 < env.measuredTime) :
    process_single_image pi env =
      ProcOutcome.done true [] {} env.measuredTime env.findContourTime ∧
    classifiedSuccess (process_single_image pi env) = true ∧
    (classify st path {} env.measuredTime env.findContourTime).number = st.number + 1 ∧
    (classify st path {} env.measuredTime env.findContourTime).results =
      st.results ++ [(path, 0, 0, env.measuredTime, env.findContourTime)] ∧
    (classify st path {} env.measuredTime env.findContourTime).skipped = st.skipped := by
  have hnot : ¬(env.whitePixelCount < 250 ∨ 650 < env.whitePixelCount) := by
    push_neg
    exact ⟨hw1, hw2⟩
  have hp : process_single_image pi env =
      ProcOutcome.done true [] {} env.measuredTime env.findContourTime := by
    unfold process_single_image
    rw [hr]
    rw [if_neg (by simp), if_neg hnot, hc]
    simp
  refine ⟨hp, ?_, ?_, ?_, ?_⟩
  · rw [hp]
    simp only [classifiedSuccess]
    exact decide_eq_true ht
  · simp [classify, ht]
  · simp [classify, ht]
  · simp [classify, ht]

/-- Claim C9 witness: the theorem evaluated on a concrete in-range,
contour-free frame. -/
theorem noContour_zeroMetrics_success_witness :
    process_single_image 3 w9Env = ProcOutcome.done true [] {} 5 2 ∧
    classifiedSuccess (process_single_image 3 w9Env) = true ∧
    (classify initRunState "a" {} 5 2).number = initRunState.number + 1 ∧
    (classify initRunState "a" {} 5 2).results =
      initRunState.results ++ [("a", 0, 0, 5, 2)] ∧
    (classify initRunState "a" {} 5 2).skipped = initRunState.skipped :=
  noContour_zeroMetrics_success 3 initRunState "a" w9Env rfl (by decide) (by decide)
    rfl (by decide)

/-- Claim C10 (confirmed): with a non-empty contour list the metrics are
computed exclusively from the max_element contour (the first one of
maximal area): the result coincides with the metrics of that single
contour; if its area or perimeter, or its hull's, is at most 1e-6, every
metrics field is the zero default; otherwise area_ratio and
circularity_ratio are the hull/original quotients of that contour. -/
theorem metrics_from_max_area_contour (pi : ℚ) (l : List Contour) (cnt : Contour)
    (h : maxElement l = some cnt) :
    cnt ∈ l ∧ (∀ c ∈ l, c.area ≤ cnt.area) ∧
    calculate_contour_metrics pi l = contourBodyMetrics pi cnt ∧
    ((cnt.area ≤ eps ∨ cnt.perimeter ≤ eps ∨ cnt.hullArea ≤ eps ∨ cnt.hullPerimeter ≤ eps) →
      calculate_contour_metrics pi l = {}) ∧
    (eps < cnt.area → eps < cnt.perimeter → eps < cnt.hullArea → eps < cnt.hullPerimeter →
      (calculate_contour_metrics pi l).area_ratio = cnt.hullArea / cnt.area ∧
      (calculate_contour_metrics pi l).circularity_ratio =
        (4 * pi * cnt.hullArea / (cnt.hullPerimeter * cnt.hullPerimeter)) /
          (4 * pi * cnt.area / (cnt.perimeter * cnt.perimeter))) := by
  obtain ⟨hmem, hall⟩ := maxElement_spec l cnt h
  have hcalc : calculate_contour_metrics pi l = contourBodyMetrics pi cnt := by
    unfold calculate_contour_metrics
    rw [h]
  refine ⟨hmem, hall, hcalc, ?_, ?_⟩
  · intro hdeg
    rw [hcalc]
    unfold contourBodyMetrics
    rcases hdeg with h1 | h1 | h1 | h1
    · rw [if_pos (Or.inl h1)]
    · rw [if_pos (Or.inr h1)]
    · by_cases h2 : cnt.area ≤ eps ∨ cnt.perimeter ≤ eps
      · rw [if_pos h2]
      · rw [if_neg h2, if_pos (Or.inl h1)]
    · by_cases h2 : cnt.area ≤ eps ∨ cnt.perimeter ≤ eps
      · rw [if_pos h2]
      · rw [if_neg h2, if_pos (Or.inr h1)]
  · intro e1 e2 e3 e4
    rw [hcalc]
    unfold contourBodyMetrics
    rw [if_neg (by push_neg; exact ⟨e1, e2⟩), if_neg (by push_neg; exact ⟨e3, e4⟩)]
    exact ⟨rfl, rfl⟩

/-- Claim C10 witness: the theorem evaluated on a concrete two-contour
list whose max-area contour is non-degenerate. -/
theorem metrics_from_max_area_contour_witness :
    calculate_contour_metrics 3 [w10cA, w10cB] = contourBodyMetrics 3 w10cB ∧
    (calculate_contour_metrics 3 [w10cA, w10cB]).area_ratio = w10cB.hullArea / w10cB.area := by
  have h := metrics_from_max_area_contour 3 [w10cA, w10cB] w10cB (by decide)
  exact ⟨h.2.2.1, (h.2.2.2.2 (by norm_num [eps, w10cB]) (by norm_num [eps, w10cB])
    (by norm_num [eps, w10cB]) (by norm_num [eps, w10cB])).1⟩

/-- Claim C7 (confirmed): in time_skip.cpp a frame over the 200
microsecond budget at the first check point is rejected carrying the
first-check-point elapsed time; within budget there but over at the
second check point, it is rejected carrying the second elapsed time; and
within budget at both it is accepted, recorded among the results while
the skip list stays unchanged; the rejected ones are recorded in
skipped_images with their partial elapsed time. -/
theorem timeBudget_classification (pi : ℚ) (e : TSEnv) (st : TSState) (path : String)
    (hr : e.readable = true) :
    (200 < e.d1 →
      ts_process_single_image pi e = TSOutcome.rejected e.d1 ∧
      tsRunItems pi [(path, e)] st =
        Except.ok { st with skipped := st.skipped ++ [(path, e.d1)] }) ∧
    (e.d1 ≤ 200 → 200 < e.d2 →
      ts_process_single_image pi e = TSOutcome.rejected e.d2 ∧
      tsRunItems pi [(path, e)] st =
        Except.ok { st with skipped := st.skipped ++ [(path, e.d2)] }) ∧
    (e.d1 ≤ 200 → e.d2 ≤ 200 →
      ts_process_single_image pi e = TSOutcome.accepted (tsMetricsOf pi e) e.d2 ∧
      tsRunItems pi [(path, e)] st =
        Except.ok (tsClassify st path true (tsMetricsOf pi e) e.d2) ∧
      (tsClassify st path true (tsMetricsOf pi e) e.d2).results =
        st.results ++ [(path, (tsMetricsOf pi e).circularity_ratio,
          (tsMetricsOf pi e).area_ratio, e.d2)] ∧
      (tsClassify st path true (tsMetricsOf pi e) e.d2).skipped = st.skipped) := by
  refine ⟨?_, ?_, ?_⟩
  · intro h1
    have hp : ts_process_single_image pi e = TSOutcome.rejected e.d1 := by
      unfold ts_process_single_image
      rw [hr]
      rw [if_neg (by simp), if_pos h1]
    refine ⟨hp, ?_⟩
    simp only [tsRunItems, hp]
    simp [tsClassify]
  · intro h1 h2
    have hp : ts_process_single_image pi e = TSOutcome.rejected e.d2 := by
      unfold ts_process_single_image
      rw [hr]
      rw [if_neg (by simp), if_neg (not_lt.mpr h1), if_pos h2]
    refine ⟨hp, ?_⟩
    simp only [tsRunItems, hp]
    simp [tsClassify]
  · intro h1 h2
    have hp : ts_process_single_image pi e = TSOutcome.accepted (tsMetricsOf pi e) e.d2 := by
      unfold ts_process_single_image
      rw [hr]
      rw [if_neg (by simp), if_neg (not_lt.mpr h1), if_neg (not_lt.mpr h2)]
    refine ⟨hp, ?_, ?_, ?_⟩
    · simp only [tsRunItems, hp]
    · simp [tsClassify]
    · simp [tsClassify]

/-- Claim C7 witness: the theorem evaluated on a concrete frame that
exceeds the budget at the first check point. -/
theorem timeBudget_classification_witness :
    ts_process_single_image 3 w7Env = TSOutcome.rejected 300 ∧
    tsRunItems 3 [("x", w7Env)] {} =
      Except.ok (⟨0, 0, 0, ("", 0), [], [("x", 300)]⟩ : TSState) :=
  (timeBudget_classification 3 w7Env {} "x" rfl).1 (by decide)

/-- Claim C8 counterexample: at a concrete unreadable frame the Frame
Processor does not return any Skip result at all — no Skip(Unreadable)
variant exists in this code. imread yields an empty matrix, GaussianBlur
raises an uncaught cv::Exception (modelled as crash), and the run aborts
without the item being recorded anywhere, refuting the claim that an
unreadable frame yields a distinct Skip(Unreadable) classification. -/
theorem unreadable_noSkipVariant_cex :
    process_single_image 3 badFrame = ProcOutcome.crash ∧
    runItems 3 [("img_000.tiff", badFrame)] initRunState = Except.error () := by
  constructor <;> rfl

/-- Claim C8 amended (corrected): an unreadable frame is never classified
at all: processing it crashes with an uncaught exception that aborts the
run before any classification, so it is never classified OutOfRange and
never counted as a (zero-duration) Success, and the zero-elapsed sentinel
marks only the out-of-range skip — but no Skip(Unreadable) result is
produced. -/
theorem unreadable_crashes_run (pi : ℚ) (env : FrameEnv) (path : String)
    (rest : List WItem) (st : RunState) (hr : env.readable = false) :
    process_single_image pi env = ProcOutcome.crash ∧
    runItems pi ((path, env) :: rest) st = Except.error () := by
  have hp : process_single_image pi env = ProcOutcome.crash := by
    unfold process_single_image
    rw [hr]
    simp
  refine ⟨hp, ?_⟩
  simp only [runItems, hp]

/-- Claim C8 witness for the amended theorem, at a concrete unreadable
frame. -/
theorem unreadable_crashes_run_witness :
    process_single_image 3 badFrame = ProcOutcome.crash ∧
    runItems 3 [("y", badFrame)] initRunState = Except.error () :=
  unreadable_crashes_run 3 badFrame "y" [] initRunState rfl

/-- Claim C1 (code_bug): main evaluated at two repetitions whose success
counts differ — repetition 1 has one success of 4 microseconds,
repetition 2 has two successes of 1 microsecond each. The code divides
the cross-run sums by total_processed_images = (last repetition's
results count) × R = 2 × 2 = 4 and reports average processing time 3/2,
while the claimed average over every Success across every repetition is
(4+1+1)/(1+2) = 2. -/
theorem crossRunAverage_denominator_eval :
    mainModel 3 "d" c1Reps = Except.ok c1Out ∧
    c1Out.avgProc = 3 / 2 ∧
    (3 / 2 : ℚ) ≠ (4 + 1 + 1) / (1 + 2) := by
  refine ⟨?_, ?_, ?_⟩
  · norm_num [mainModel, mainLoop, mainStep, runItems, classify, process_single_image,
      initRunState, c1Reps, c1Out, resCirc, resArea, resProc, resFc]
  · norm_num [c1Out]
  · norm_num

/-- Claim C3 (code_bug): main evaluated with the background image
unreadable in every repetition. The diagnostic naming the path is written
— once per repetition, showing all three repetitions still execute — the
zero-valued summary statistics are still produced, and the exit code is
0, contradicting the claimed abort-before-processing with non-zero
exit and no statistics. -/
theorem backgroundUnreadable_eval :
    mainModel 3 "Test_images/512x96crop" c3Reps = Except.ok c3Out ∧
    c3Out.exitCode = 0 ∧ c3Out.errLines.length = c3Reps.length := by
  refine ⟨?_, ?_, ?_⟩
  · norm_num [mainModel, mainLoop, mainStep, c3Reps, c3Out]
  · norm_num [c3Out]
  · norm_num [c3Out, c3Reps]

end VisionBench
